import Mathlib

/-!
Verification development for the security-camera backend
(`src/backend/main.py`).

Shallow embedding conventions:
* Python `float` confidences, thresholds → `ℚ` (the claims are about order
  comparisons and decimal rounding, which `ℚ` represents exactly).
* `datetime` timestamps and `timedelta(minutes=n)` → `ℤ`, measured in
  minutes, so `datetime.now() - last > timedelta(minutes=c)` becomes
  `now - last > c`.
* Python `dict` → association list with unique keys maintained by
  `dictSet` (first-occurrence lookup, in-place overwrite).
* `Optional[str]` fields → `Option String`; Python truthiness of such a
  field (`if rule.actions.emailAddress:`) is `truthy`, false for `None`
  and for the empty string.
* The SendGrid call in `send_email` (main.py lines 113-130), which catches
  every exception and returns `False`, → an oracle
  `dispatch : DispatchAttempt → Bool` passed as a parameter; `false`
  covers both a provider failure and a raised exception.
* The video capture, YOLO inference, and image drawing/encoding are
  external collaborators: a stream run is modelled over a finite trace of
  capture outcomes, each carrying the inference outcome for that frame,
  and the encoded image is represented by the frame's index.
-/

set_option autoImplicit false

namespace SecurityCamera

/-- `ActionSettings` pydantic model (main.py lines 16-23). -/
structure ActionSettings where
  sendEmail : Bool
  sendMessage : Bool
  emailAddress : Option String := none
  emailSubject : Option String := none
  emailMessage : Option String := none
  phoneNumber : Option String := none
  smsMessage : Option String := none
  deriving DecidableEq, Repr

/-- `DetectionRule` pydantic model (main.py lines 25-29). -/
structure DetectionRule where
  id : String
  detectionClass : String
  threshold : ℚ
  actions : ActionSettings
  deriving DecidableEq, Repr

/-- Python truthiness of an `Optional[str]`: `None` and `""` are falsy. -/
def truthy : Option String → Bool
  | none => false
  | some s => s ≠ ""

/-- First-occurrence lookup in an association list (Python `d[k]` /
`k in d` on a dict whose entries were added by `dictSet`). -/
def dictGet {α : Type} : List (String × α) → String → Option α
  | [], _ => none
  | (k', v) :: rest, k => if k' = k then some v else dictGet rest k

/-- Python dict assignment `d[k] = v`: overwrite the entry in place if the
key is present, else append. -/
def dictSet {α : Type} : List (String × α) → String → α → List (String × α)
  | [], k, v => [(k, v)]
  | (k', v') :: rest, k, v =>
      if k' = k then (k, v) :: rest else (k', v') :: dictSet rest k v

/-- The per-rule trigger check of the notification loop (main.py lines
185-188): the rule fires iff `rule.detectionClass in detected_classes`
and `detected_classes[rule.detectionClass] >= rule.threshold`. -/
def ruleFires (detected_classes : List (String × ℚ)) (rule : DetectionRule) : Bool :=
  match dictGet detected_classes rule.detectionClass with
  | some confidence => confidence ≥ rule.threshold
  | none => false

/-- `EmailTracker.can_send_email` (main.py lines 99-104): eligible iff the
rule id has no recorded send, or the elapsed time strictly exceeds the
cooldown (default 5 minutes). `last_sent` is the tracker dictionary,
`now` stands for `datetime.now()`. -/
def can_send_email (last_sent : List (String × ℤ)) (rule_id : String)
    (now : ℤ) (cooldown_minutes : ℤ := 5) : Bool :=
  match dictGet last_sent rule_id with
  | none => true
  | some t => now - t > cooldown_minutes

/-- `EmailTracker.update_last_sent` (main.py lines 106-107). -/
def update_last_sent (last_sent : List (String × ℤ)) (rule_id : String)
    (now : ℤ) : List (String × ℤ) :=
  dictSet last_sent rule_id now

/-- A raw detection as returned by the YOLO inference step (main.py lines
152-156): class name, confidence, and integer bounding box. -/
structure RawDetection where
  className : String
  confidence : ℚ
  bbox : ℤ × ℤ × ℤ × ℤ
  deriving DecidableEq, Repr

/-- An entry of the `detections` list published in the frame event
(main.py lines 162-166); its confidence is `round(confidence, 2)`. -/
structure PubDetection where
  className : String
  confidence : ℚ
  bbox : ℤ × ℤ × ℤ × ℤ
  deriving DecidableEq, Repr

/-- `round(x, 2)` on the confidence (main.py line 164), modelled on `ℚ` as
rounding to the nearest multiple of `1/100` (half rounds up; Python's
float bankers' rounding differs only at exact half-ties, which no claim
depends on). Written in integer arithmetic so the kernel can evaluate it;
`round2_eq_floor` proves it equal to the textbook `⌊q*100 + 1/2⌋ / 100`. -/
def round2 (q : ℚ) : ℚ := mkRat ((200 * q.num + (q.den : ℤ)) / (2 * (q.den : ℤ))) 100

/-- The per-frame accumulator of the detection loop (main.py lines
145-149): the published `detections` list, `person_count`, and the
`detected_classes` best-confidence dictionary. -/
structure FrameData where
  detections : List PubDetection
  person_count : ℕ
  detected_classes : List (String × ℚ)
  deriving DecidableEq, Repr

/-- One iteration of the detection loop body (main.py lines 158-170):
keep the detection iff `confidence > 0.5`; bump `person_count` for class
`"person"`; append the detection with rounded confidence; keep the
highest (unrounded) confidence per class in `detected_classes`.
(The `cv2.rectangle`/`putText` drawing only mutates the image buffer.)
The source's `0.5` literal is written `mkRat 1 2` (the same rational, see
`mkRat_one_two`) so concrete runs kernel-evaluate. -/
def processDetection (st : FrameData) (d : RawDetection) : FrameData :=
  if d.confidence > mkRat 1 2 then
    { detections := st.detections ++
        [{ className := d.className, confidence := round2 d.confidence, bbox := d.bbox }]
      person_count := st.person_count + (if d.className = "person" then 1 else 0)
      detected_classes :=
        match dictGet st.detected_classes d.className with
        | none => dictSet st.detected_classes d.className d.confidence
        | some c =>
            if d.confidence > c then dictSet st.detected_classes d.className d.confidence
            else st.detected_classes }
  else st

/-- The whole detection loop over one frame's raw detections (main.py
lines 145-170). -/
def aggregateFrame (raws : List RawDetection) : FrameData :=
  raws.foldl processDetection ⟨[], 0, []⟩

/-- The detections the loop keeps: those with confidence strictly above
0.5 (main.py line 158). -/
def keptOf (raws : List RawDetection) : List RawDetection :=
  raws.filter (fun d => d.confidence > mkRat 1 2)

/-- How a kept raw detection appears in the published list (main.py lines
162-166). -/
def pubOf (d : RawDetection) : PubDetection :=
  { className := d.className, confidence := round2 d.confidence, bbox := d.bbox }

/-- The unrounded confidences of the kept detections of one class. -/
def classConfs (raws : List RawDetection) (cls : String) : List ℚ :=
  ((keptOf raws).filter (fun d => d.className = cls)).map (fun d => d.confidence)

/-- Running maximum as computed by the `detected_classes` update: the
accumulated best value (if any) combined with each new confidence by the
source's strict comparison. -/
def maxConf : Option ℚ → List ℚ → Option ℚ
  | o, [] => o
  | none, c :: cs => maxConf (some c) cs
  | some m, c :: cs => maxConf (some (if c > m then c else m)) cs

/-- The notification channels of the data model. The source only ever
constructs email dispatches; `sms` exists so that the absence of an SMS
branch can be stated. -/
inductive Channel
  | email
  | sms
  deriving DecidableEq, Repr

/-- One dispatch attempt handed to the external provider (`send_email`'s
arguments, main.py lines 192-196). -/
structure DispatchAttempt where
  channel : Channel
  recipient : String
  subject : String
  content : String
  deriving DecidableEq, Repr

/-- The notification-handling body for one rule (main.py lines 185-197):
if the rule fires, and `sendEmail` is set and the tracker allows a send,
and the three email fields are truthy, call the dispatcher; record the
send time only when the dispatcher reports success. Returns the updated
tracker and the list of dispatch attempts made (`[]` or one email). -/
def checkRule (dispatch : DispatchAttempt → Bool) (now : ℤ)
    (detected_classes : List (String × ℚ))
    (tracker : List (String × ℤ)) (rule : DetectionRule) :
    List (String × ℤ) × List DispatchAttempt :=
  if ruleFires detected_classes rule then
    if rule.actions.sendEmail && can_send_email tracker rule.id now then
      if truthy rule.actions.emailAddress && truthy rule.actions.emailSubject &&
          truthy rule.actions.emailMessage then
        if dispatch { channel := Channel.email,
                      recipient := rule.actions.emailAddress.getD "",
                      subject := rule.actions.emailSubject.getD "",
                      content := rule.actions.emailMessage.getD "" } then
          (update_last_sent tracker rule.id now,
           [{ channel := Channel.email,
              recipient := rule.actions.emailAddress.getD "",
              subject := rule.actions.emailSubject.getD "",
              content := rule.actions.emailMessage.getD "" }])
        else
          (tracker,
           [{ channel := Channel.email,
              recipient := rule.actions.emailAddress.getD "",
              subject := rule.actions.emailSubject.getD "",
              content := rule.actions.emailMessage.getD "" }])
      else (tracker, [])
    else (tracker, [])
  else (tracker, [])

/-- The `for rule in rules:` notification loop (main.py lines 184-197),
threading the tracker and collecting all dispatch attempts in order. -/
def checkRules (dispatch : DispatchAttempt → Bool) (now : ℤ)
    (detected_classes : List (String × ℚ)) :
    List (String × ℤ) → List DetectionRule →
    List (String × ℤ) × List DispatchAttempt
  | tracker, [] => (tracker, [])
  | tracker, rule :: rest =>
      ((checkRules dispatch now detected_classes
          (checkRule dispatch now detected_classes tracker rule).1 rest).1,
       (checkRule dispatch now detected_classes tracker rule).2 ++
        (checkRules dispatch now detected_classes
          (checkRule dispatch now detected_classes tracker rule).1 rest).2)

/-- One iteration's external inputs for `generate_frames_with_data`:
the frame index (standing in for the image buffer), the wall-clock time
at that frame, and the YOLO outcome — `Except.ok` with the raw detections
or `Except.error` when inference raises. -/
structure Frame where
  frameId : ℕ
  time : ℤ
  infer : Except Unit (List RawDetection)

/-- How a run of the stream generator ends on a finite trace. -/
inductive StreamEnd
  /-- `video_capture.read()` returned no frame: the loop breaks
  (main.py lines 134-136). -/
  | captureEnded
  /-- Inference raised: the exception propagates out of the generator
  (there is no handler around `model(frame)` at main.py line 139). -/
  | inferenceError
  /-- The finite input trace was exhausted with the loop still running. -/
  | traceEnded
  deriving DecidableEq, Repr

/-- The per-frame payload pushed to the stream subscriber (main.py lines
204-208); the base64 image is represented by `frameId`. -/
structure FrameEvent where
  frameId : ℕ
  person_count : ℕ
  detections : List PubDetection
  deriving DecidableEq, Repr

/-- `generate_frames_with_data` (main.py lines 132-210) run over a finite
trace of capture outcomes (`none` = capture failure). Each frame:
aggregate detections, run the notification loop (threading the tracker),
then yield the frame event. `rules` is `load_rules()`, re-read each frame
from a file this model treats as unchanged during the run. Inference
failure ends the run at once: no event for that frame and no later frame
is processed. -/
def runStream (dispatch : DispatchAttempt → Bool) (rules : List DetectionRule) :
    List (String × ℤ) → List (Option Frame) → List FrameEvent × StreamEnd
  | _, [] => ([], StreamEnd.traceEnded)
  | _, none :: _ => ([], StreamEnd.captureEnded)
  | tracker, some f :: rest =>
      match f.infer with
      | Except.error _ => ([], StreamEnd.inferenceError)
      | Except.ok raws =>
          ({ frameId := f.frameId,
             person_count := (aggregateFrame raws).person_count,
             detections := (aggregateFrame raws).detections } ::
            (runStream dispatch rules
              (checkRules dispatch f.time (aggregateFrame raws).detected_classes
                tracker rules).1 rest).1,
           (runStream dispatch rules
              (checkRules dispatch f.time (aggregateFrame raws).detected_classes
                tracker rules).1 rest).2)

/-- `save_rule`'s upsert on the stored list (main.py lines 64-76): replace
the first entry whose id matches, else append. -/
def saveRuleList (rules : List DetectionRule) (rule : DetectionRule) :
    List DetectionRule :=
  match rules.findIdx? (fun r => r.id = rule.id) with
  | some i => rules.set i rule
  | none => rules ++ [rule]

/-- Structural form of the same upsert, used to reason by induction;
`saveRuleList_eq_saveAux` proves the two agree. -/
def saveAux (rule : DetectionRule) : List DetectionRule → List DetectionRule
  | [] => [rule]
  | r :: rest => if r.id = rule.id then rule :: rest else r :: saveAux rule rest

/-- `delete_rule`'s removal on the stored list (main.py lines 78-83). -/
def deleteRuleList (rules : List DetectionRule) (rule_id : String) :
    List DetectionRule :=
  rules.filter (fun r => r.id ≠ rule_id)

/-- A `POST /rules` body as received, before pydantic validation of
`ActionSettings`: each field either present (`some`) or absent (`none`). -/
structure ActionPayload where
  sendEmail : Option Bool
  sendMessage : Option Bool
  emailAddress : Option String := none
  emailSubject : Option String := none
  emailMessage : Option String := none
  phoneNumber : Option String := none
  smsMessage : Option String := none
  deriving DecidableEq, Repr

/-- A `POST /rules` body as received, before pydantic validation of
`DetectionRule`. -/
structure RulePayload where
  id : Option String
  detectionClass : Option String
  threshold : Option ℚ
  actions : Option ActionPayload
  deriving DecidableEq, Repr

/-- Pydantic validation of `ActionSettings` (main.py lines 16-23): the two
booleans have no default and are required; every other field is
`Optional[...] = None`. No further checks are declared. -/
def parseActions (p : ActionPayload) : Option ActionSettings :=
  match p.sendEmail, p.sendMessage with
  | some se, some sm =>
      some { sendEmail := se, sendMessage := sm,
             emailAddress := p.emailAddress, emailSubject := p.emailSubject,
             emailMessage := p.emailMessage, phoneNumber := p.phoneNumber,
             smsMessage := p.smsMessage }
  | _, _ => none

/-- Pydantic validation of `DetectionRule` (main.py lines 25-29): all four
fields are required; `threshold: float` carries no range constraint, and
no validator relates the booleans to the optional channel fields. A `none`
result is FastAPI's 422 client-error rejection; a `some` result is the
value `save_rule` stores as-is. -/
def parseRule (p : RulePayload) : Option DetectionRule :=
  match p.id, p.detectionClass, p.threshold, p.actions with
  | some i, some dc, some t, some a =>
      (parseActions a).map
        (fun as => { id := i, detectionClass := dc, threshold := t, actions := as })
  | _, _, _, _ => none

/-- Action settings used by concrete test inputs: email channel fully
configured. -/
def demoActions : ActionSettings :=
  { sendEmail := true, sendMessage := false,
    emailAddress := some "a@b.com", emailSubject := some "S",
    emailMessage := some "M" }

/-- Concrete rule used by witnesses: fires on `"person"` at 0.8. -/
def demoRule : DetectionRule :=
  { id := "r1", detectionClass := "person", threshold := mkRat 4 5,
    actions := demoActions }

/-- Same id as `demoRule`, different content, for upsert tests. -/
def demoRule2 : DetectionRule :=
  { id := "r1", detectionClass := "person", threshold := mkRat 3 5,
    actions := demoActions }

/-- Concrete raw detections: two persons (0.9, 0.7) and a sub-threshold
cat (0.3). -/
def demoRaws : List RawDetection :=
  [{ className := "person", confidence := mkRat 9 10, bbox := (0, 0, 10, 10) },
   { className := "person", confidence := mkRat 7 10, bbox := (1, 1, 5, 5) },
   { className := "cat", confidence := mkRat 3 10, bbox := (0, 0, 2, 2) }]

/-- A detection whose confidence 0.856 changes under rounding to 2
decimal places. -/
def c9Raws : List RawDetection :=
  [{ className := "person", confidence := mkRat 856 1000, bbox := (0, 0, 1, 1) }]

/-- A rule whose threshold 0.851 separates the raw confidence 0.856 from
its rounded display value 0.86. -/
def c9Rule : DetectionRule :=
  { id := "r9", detectionClass := "person", threshold := mkRat 851 1000,
    actions := demoActions }

/-- A trace with a good frame, a frame whose inference raises, and another
good frame after it. -/
def c7Trace : List (Option Frame) :=
  [some { frameId := 0, time := 0, infer := Except.ok [] },
   some { frameId := 1, time := 1, infer := Except.error () },
   some { frameId := 2, time := 2, infer := Except.ok [] }]

/-- A rule with only the SMS channel enabled and both SMS fields present. -/
def c8Rule : DetectionRule :=
  { id := "r8", detectionClass := "person", threshold := mkRat 4 5,
    actions := { sendEmail := false, sendMessage := true,
                 phoneNumber := some "+15550100", smsMessage := some "alert" } }

/-- A payload with threshold 1.5 (outside [0,1]) and the email channel
enabled while every email field is absent. -/
def c6Payload : RulePayload :=
  { id := some "r6", detectionClass := some "person",
    threshold := some (mkRat 3 2),
    actions := some { sendEmail := some true, sendMessage := some false } }

/-- The rule pydantic accepts for `c6Payload`. -/
def c6Rule : DetectionRule :=
  { id := "r6", detectionClass := "person", threshold := mkRat 3 2,
    actions := { sendEmail := true, sendMessage := false } }

end SecurityCamera

namespace SecurityCamera

@[simp] theorem dictGet_nil {α : Type} (k : String) :
    dictGet ([] : List (String × α)) k = none := rfl

theorem dictGet_dictSet {α : Type} (m : List (String × α)) (k k' : String) (v : α) :
    dictGet (dictSet m k v) k' = if k = k' then some v else dictGet m k' := by
  induction m with
  | nil => simp [dictSet, dictGet]
  | cons p rest ih =>
      obtain ⟨pk, pv⟩ := p
      by_cases hpk : pk = k
      · subst hpk
        simp only [dictSet, if_pos rfl, dictGet]
        by_cases h : pk = k' <;> simp [h]
      · simp only [dictSet, if_neg hpk, dictGet]
        by_cases hpk' : pk = k'
        · subst hpk'
          have : ¬ k = pk := fun h => hpk h.symm
          simp [this, ih]
        · simp [hpk', ih]

theorem keptOf_cons (d : RawDetection) (raws : List RawDetection) :
    keptOf (d :: raws) =
      if d.confidence > mkRat 1 2 then d :: keptOf raws else keptOf raws := by
  simp only [keptOf, List.filter_cons]
  by_cases h : d.confidence > mkRat 1 2 <;> simp [h]

theorem classConfs_cons (d : RawDetection) (raws : List RawDetection) (cls : String) :
    classConfs (d :: raws) cls =
      if d.confidence > mkRat 1 2 ∧ d.className = cls
      then d.confidence :: classConfs raws cls else classConfs raws cls := by
  simp only [classConfs, keptOf_cons]
  by_cases h : d.confidence > mkRat 1 2
  · by_cases hc : d.className = cls <;> simp [h, hc, List.filter_cons]
  · simp [h]

theorem foldl_detections (raws : List RawDetection) (st : FrameData) :
    (List.foldl processDetection st raws).detections =
      st.detections ++ (keptOf raws).map pubOf := by
  induction raws generalizing st with
  | nil => simp [keptOf]
  | cons d rest ih =>
      rw [List.foldl_cons, ih, keptOf_cons]
      by_cases h : d.confidence > mkRat 1 2 <;>
        simp [processDetection, h, pubOf]

theorem foldl_person_count (raws : List RawDetection) (st : FrameData) :
    (List.foldl processDetection st raws).person_count =
      st.person_count +
        ((keptOf raws).filter (fun d => d.className = "person")).length := by
  induction raws generalizing st with
  | nil => simp [keptOf]
  | cons d rest ih =>
      rw [List.foldl_cons, ih, keptOf_cons]
      by_cases h : d.confidence > mkRat 1 2
      · by_cases hp : d.className = "person" <;>
          simp [processDetection, h, hp, List.filter_cons, Nat.add_assoc, Nat.add_comm]
      · simp [processDetection, h]

theorem foldl_detected_classes (raws : List RawDetection) (st : FrameData) (cls : String) :
    dictGet (List.foldl processDetection st raws).detected_classes cls =
      maxConf (dictGet st.detected_classes cls) (classConfs raws cls) := by
  induction raws generalizing st with
  | nil => simp [classConfs, keptOf, maxConf]
  | cons d rest ih =>
      rw [List.foldl_cons, ih, classConfs_cons]
      by_cases h : d.confidence > mkRat 1 2
      · by_cases hc : d.className = cls
        · subst hc
          simp only [h, true_and, if_pos rfl]
          cases hget : dictGet st.detected_classes d.className with
          | none =>
              simp [processDetection, h, hget, dictGet_dictSet, maxConf]
          | some c =>
              by_cases hgt : d.confidence > c
              · simp [processDetection, h, hget, hgt, dictGet_dictSet, maxConf]
              · simp [processDetection, h, hget, hgt, maxConf]
        · have hne : ¬ (d.confidence > mkRat 1 2 ∧ d.className = cls) := fun hh => hc hh.2
          rw [if_neg hne]
          cases hget : dictGet st.detected_classes d.className with
          | none =>
              simp [processDetection, h, hget, dictGet_dictSet, hc]
          | some c =>
              by_cases hgt : d.confidence > c
              · simp [processDetection, h, hget, hgt, dictGet_dictSet, hc]
              · simp [processDetection, h, hget, hgt]
      · have hne : ¬ (d.confidence > mkRat 1 2 ∧ d.className = cls) := fun hh => h hh.1
        simp [processDetection, h, hne]

theorem maxConf_some_spec (l : List ℚ) (m c : ℚ)
    (h : maxConf (some m) l = some c) :
    (c = m ∨ c ∈ l) ∧ m ≤ c ∧ ∀ x ∈ l, x ≤ c := by
  induction l generalizing m with
  | nil =>
      simp only [maxConf, Option.some.injEq] at h
      subst h
      exact ⟨Or.inl rfl, le_refl _, by simp⟩
  | cons a as ih =>
      simp only [maxConf] at h
      obtain ⟨hmem, hle, hub⟩ := ih _ h
      by_cases hgt : a > m
      · simp only [hgt, if_pos] at hmem hle
        refine ⟨?_, le_of_lt (lt_of_lt_of_le hgt hle), ?_⟩
        · rcases hmem with hc | hc
          · exact Or.inr (by simp [hc])
          · exact Or.inr (by simp [hc])
        · intro x hx
          rcases List.mem_cons.mp hx with hx | hx
          · exact hx ▸ hle
          · exact hub x hx
      · simp only [hgt, if_neg, ite_false] at hmem hle
        refine ⟨?_, hle, ?_⟩
        · rcases hmem with hc | hc
          · exact Or.inl hc
          · exact Or.inr (by simp [hc])
        · intro x hx
          rcases List.mem_cons.mp hx with hx | hx
          · exact hx ▸ le_trans (le_of_not_lt hgt) hle
          · exact hub x hx

theorem maxConf_some_isSome (l : List ℚ) (m : ℚ) :
    ∃ c, maxConf (some m) l = some c := by
  induction l generalizing m with
  | nil => exact ⟨m, rfl⟩
  | cons a as ih => exact ih _

theorem maxConf_none_eq_some_iff (l : List ℚ) (c : ℚ) :
    maxConf none l = some c ↔ c ∈ l ∧ ∀ x ∈ l, x ≤ c := by
  constructor
  · intro h
    cases l with
    | nil => simp [maxConf] at h
    | cons a as =>
        simp only [maxConf] at h
        obtain ⟨hmem, hle, hub⟩ := maxConf_some_spec as a c h
        refine ⟨?_, ?_⟩
        · rcases hmem with hc | hc
          · simp [hc]
          · simp [hc]
        · intro x hx
          rcases List.mem_cons.mp hx with hx | hx
          · exact hx ▸ hle
          · exact hub x hx
  · rintro ⟨hc, hub⟩
    cases l with
    | nil => simp at hc
    | cons a as =>
        obtain ⟨c', hc'⟩ := maxConf_some_isSome as a
        have heq : maxConf none (a :: as) = some c' := hc'
        obtain ⟨hmem', hle', hub'⟩ := maxConf_some_spec as a c' hc'
        have h1 : c ≤ c' := by
          rcases List.mem_cons.mp hc with hx | hx
          · exact hx ▸ hle'
          · exact hub' c hx
        have h2 : c' ≤ c := by
          rcases hmem' with hx | hx
          · exact hx ▸ hub a (by simp)
          · exact hub c' (by simp [hx])
        rw [heq, le_antisymm h2 h1]

theorem maxConf_none_eq_none_iff (l : List ℚ) :
    maxConf none l = none ↔ l = [] := by
  cases l with
  | nil => simp [maxConf]
  | cons a as =>
      obtain ⟨c', hc'⟩ := maxConf_some_isSome as a
      have heq : maxConf none (a :: as) = some c' := hc'
      simp [heq]

/-- Validation: the kernel-evaluable `round2` is the textbook rounding of
`q` to two decimal places, `⌊q * 100 + 1/2⌋ / 100`. -/
theorem round2_eq_floor (q : ℚ) : round2 q = (⌊q * 100 + 1 / 2⌋ : ℚ) / 100 := by
  have hden : (((2 * q.den : ℕ) : ℚ)) ≠ 0 := by
    push_cast
    positivity
  have hq : ((q.den : ℚ)) ≠ 0 := by exact_mod_cast q.den_ne_zero
  have hmul : (q : ℚ) * (q.den : ℚ) = (q.num : ℚ) := by
    nth_rewrite 1 [← Rat.num_div_den q]
    exact div_mul_cancel₀ _ hq
  have key : (q * 100 + 1 / 2 : ℚ) =
      ((200 * q.num + (q.den : ℤ) : ℤ) : ℚ) / ((2 * q.den : ℕ) : ℚ) := by
    rw [eq_div_iff hden]
    push_cast
    linear_combination (200 : ℚ) * hmul
  rw [round2, Rat.mkRat_eq_div, key, Rat.floor_intCast_div_natCast]
  rw [show ((2 * q.den : ℕ) : ℤ) = 2 * (q.den : ℤ) by push_cast; ring]
  norm_num

/-- Validation: the cutoff written `mkRat 1 2` is the source's `0.5`. -/
theorem mkRat_one_two : (mkRat 1 2 : ℚ) = 0.5 := by
  norm_num [Rat.mkRat_eq_div]

/-- C1: a rule fires for a frame iff the frame's best-confidence map has
an entry for `rule.detectionClass` whose value is at least
`rule.threshold`; a value equal to the threshold fires, and a value
strictly below it does not. ("Fires" is the trigger check at main.py
lines 185-188 that guards the notification handling for the rule; the
actual dispatch is further gated by channel configuration and cooldown,
see C3.) -/
theorem rule_fires_iff_confidence_ge_threshold
    (dc : List (String × ℚ)) (rule : DetectionRule) :
    (ruleFires dc rule = true ↔
      ∃ c, dictGet dc rule.detectionClass = some c ∧ rule.threshold ≤ c) ∧
    (dictGet dc rule.detectionClass = some rule.threshold →
      ruleFires dc rule = true) ∧
    (∀ c, dictGet dc rule.detectionClass = some c → c < rule.threshold →
      ruleFires dc rule = false) := by
  cases hget : dictGet dc rule.detectionClass with
  | none =>
      refine ⟨?_, ?_, ?_⟩
      · simp [ruleFires, hget]
      · intro h
        simp [hget] at h
      · intro c h
        simp [hget] at h
  | some c0 =>
      refine ⟨?_, ?_, ?_⟩
      · simp [ruleFires, hget, ge_iff_le]
      · intro h
        injection h with h
        simp [ruleFires, hget, h]
      · intro c h hlt
        injection h with h
        subst h
        simp [ruleFires, hget, not_le.mpr hlt]

/-- Witness for C1 at a concrete input: `demoRule` (threshold 0.8 on
`"person"`) fires on a map holding exactly its threshold. -/
theorem rule_fires_iff_confidence_ge_threshold_witness :
    ruleFires [("person", mkRat 4 5)] demoRule = true :=
  (rule_fires_iff_confidence_ge_threshold [("person", mkRat 4 5)] demoRule).2.1
    (by decide)

/-- C2: the throttler is eligible iff there is no cooldown record for the
rule id, or strictly more than the cooldown has elapsed; exactly at the
boundary it is still suppressed; the default cooldown argument is 5
minutes. -/
theorem can_send_email_strict_cooldown
    (last_sent : List (String × ℤ)) (rule_id : String) (now cooldown : ℤ) :
    (can_send_email last_sent rule_id now cooldown = true ↔
      dictGet last_sent rule_id = none ∨
        ∃ t, dictGet last_sent rule_id = some t ∧ now - t > cooldown) ∧
    (∀ t, dictGet last_sent rule_id = some t → now - t = cooldown →
      can_send_email last_sent rule_id now cooldown = false) ∧
    can_send_email last_sent rule_id now = can_send_email last_sent rule_id now 5 := by
  refine ⟨?_, ?_, rfl⟩
  · cases hget : dictGet last_sent rule_id with
    | none => simp [can_send_email, hget]
    | some t => simp [can_send_email, hget]
  · intro t hget hb
    simp [can_send_email, hget, hb]

/-- Witness for C2 at a concrete input: with a send recorded at time 0,
a query at time 5 (the exact 5-minute boundary) is still suppressed. -/
theorem can_send_email_strict_cooldown_witness :
    can_send_email [("r1", 0)] "r1" 5 5 = false :=
  (can_send_email_strict_cooldown [("r1", 0)] "r1" 5 5).2.1 0 (by decide) (by decide)

/-- C4: aggregation keeps exactly the raw detections with confidence
strictly above 0.5 (published through `pubOf`); `person_count` is the
number of kept detections of class `"person"`; the best-confidence map
holds, for each class, exactly the maximum confidence among kept
detections of that class and has no entry for a class without kept
detections; the empty input yields the empty summary. -/
theorem aggregateFrame_summary_spec (raws : List RawDetection) :
    (aggregateFrame raws).detections = (keptOf raws).map pubOf ∧
    (aggregateFrame raws).person_count =
      ((keptOf raws).filter (fun d => d.className = "person")).length ∧
    (∀ cls c, dictGet (aggregateFrame raws).detected_classes cls = some c ↔
      c ∈ classConfs raws cls ∧ ∀ x ∈ classConfs raws cls, x ≤ c) ∧
    (∀ cls, dictGet (aggregateFrame raws).detected_classes cls = none ↔
      classConfs raws cls = []) ∧
    aggregateFrame [] = ⟨[], 0, []⟩ := by
  refine ⟨?_, ?_, ?_, ?_, rfl⟩
  · simpa using foldl_detections raws ⟨[], 0, []⟩
  · simpa using foldl_person_count raws ⟨[], 0, []⟩
  · intro cls c
    rw [aggregateFrame, foldl_detected_classes]
    exact maxConf_none_eq_some_iff _ c
  · intro cls
    rw [aggregateFrame, foldl_detected_classes]
    exact maxConf_none_eq_none_iff _

/-- Witness for C4 at a concrete input: on `demoRaws` (persons at 0.9 and
0.7, a cat at 0.3) the best-confidence entry for `"person"` is 0.9. -/
theorem aggregateFrame_summary_spec_witness :
    dictGet (aggregateFrame demoRaws).detected_classes "person" = some (mkRat 9 10) :=
  ((aggregateFrame_summary_spec demoRaws).2.2.1 "person" (mkRat 9 10)).mpr
    ⟨by decide, by decide⟩

/-- C9: the confidence published in the frame event's detection list is
the raw confidence rounded to 2 decimal places (`pubOf` applies
`round2`), while the best-confidence map feeds the unrounded value to the
threshold comparison; on `c9Raws`/`c9Rule` the rule fires on a confidence
(0.856) that differs from every confidence shown to subscribers (0.86). -/
theorem published_rounded_threshold_unrounded :
    (∀ raws, (aggregateFrame raws).detections = (keptOf raws).map pubOf) ∧
    (∀ raws cls c, dictGet (aggregateFrame raws).detected_classes cls = some c →
      c ∈ classConfs raws cls) ∧
    (ruleFires (aggregateFrame c9Raws).detected_classes c9Rule = true ∧
      ∃ c, dictGet (aggregateFrame c9Raws).detected_classes c9Rule.detectionClass =
          some c ∧
        ((aggregateFrame c9Raws).detections.all (fun pd => pd.confidence ≠ c)) = true) := by
  refine ⟨?_, ?_, by decide, mkRat 856 1000, by decide, by decide⟩
  · intro raws
    simpa using foldl_detections raws ⟨[], 0, []⟩
  · intro raws cls c h
    rw [aggregateFrame, foldl_detected_classes] at h
    exact ((maxConf_none_eq_some_iff _ c).mp h).1

/-- Witness for C9 at a concrete input: the fired-on confidence 0.856 is
one of the unrounded kept confidences of `c9Raws`. -/
theorem published_rounded_threshold_unrounded_witness :
    (mkRat 856 1000 : ℚ) ∈ classConfs c9Raws "person" :=
  published_rounded_threshold_unrounded.2.1 c9Raws "person" (mkRat 856 1000) (by decide)

/-- C3: when the per-rule notification body makes no dispatch attempt the
tracker is unchanged; when it makes one, the rule's cooldown record is
set (overwritten) to `now` iff the dispatcher reports success, and on
failure the tracker is unchanged — so the rule stays eligible. -/
theorem cooldown_advances_iff_dispatch_success
    (dispatch : DispatchAttempt → Bool) (now : ℤ) (dc : List (String × ℚ))
    (tracker : List (String × ℤ)) (rule : DetectionRule) :
    ((checkRule dispatch now dc tracker rule).2 = [] →
      (checkRule dispatch now dc tracker rule).1 = tracker) ∧
    (∀ att, (checkRule dispatch now dc tracker rule).2 = [att] →
      (dispatch att = true →
        (checkRule dispatch now dc tracker rule).1 =
          update_last_sent tracker rule.id now ∧
        dictGet (checkRule dispatch now dc tracker rule).1 rule.id = some now) ∧
      (dispatch att = false →
        (checkRule dispatch now dc tracker rule).1 = tracker)) := by
  unfold checkRule
  repeat' split
  all_goals simp_all [update_last_sent, dictGet_dictSet]

/-- Witness for C3 at a concrete input: with a failing dispatcher, the
attempt for `demoRule` leaves the tracker empty (still eligible). -/
theorem cooldown_advances_iff_dispatch_success_witness :
    (checkRule (fun _ => false) 0 [("person", mkRat 9 10)] [] demoRule).1 = [] :=
  ((cooldown_advances_iff_dispatch_success (fun _ => false) 0
      [("person", mkRat 9 10)] [] demoRule).2
    { channel := Channel.email, recipient := "a@b.com", subject := "S", content := "M" }
    (by decide)).2 rfl

theorem checkRule_attempts_email (dispatch : DispatchAttempt → Bool) (now : ℤ)
    (dc : List (String × ℚ)) (tracker : List (String × ℤ)) (rule : DetectionRule) :
    ∀ a ∈ (checkRule dispatch now dc tracker rule).2, a.channel = Channel.email := by
  intro a ha
  unfold checkRule at ha
  repeat' split at ha
  all_goals simp_all

theorem checkRules_attempts_email (dispatch : DispatchAttempt → Bool) (now : ℤ)
    (dc : List (String × ℚ)) (tracker : List (String × ℤ))
    (rules : List DetectionRule) :
    ∀ a ∈ (checkRules dispatch now dc tracker rules).2, a.channel = Channel.email := by
  induction rules generalizing tracker with
  | nil => simp [checkRules]
  | cons r rest ih =>
      intro a ha
      simp only [checkRules, List.mem_append] at ha
      rcases ha with h | h
      · exact checkRule_attempts_email dispatch now dc tracker r a h
      · exact ih _ a h

/-- C8 counterexample: `c8Rule` has `sendMessage` true with both SMS
fields present, fires on the frame (person at 0.9 ≥ 0.8), and is
cooldown-eligible, yet the notification loop makes no dispatch attempt at
all — there is no SMS branch in the code. -/
theorem sms_never_dispatched_counterexample :
    ruleFires [("person", mkRat 9 10)] c8Rule = true ∧
    can_send_email [] c8Rule.id 0 = true ∧
    c8Rule.actions.sendMessage = true ∧
    truthy c8Rule.actions.phoneNumber = true ∧
    truthy c8Rule.actions.smsMessage = true ∧
    (checkRules (fun _ => true) 0 [("person", mkRat 9 10)] [] [c8Rule]).2 = [] := by
  decide

/-- C8 amended: the notification loop never attempts an SMS dispatch;
every attempt it produces is on the email channel (the code wires only
the email branch; the SMS fields are carried in the data model but never
used by the dispatch path). -/
theorem notification_attempts_email_only
    (dispatch : DispatchAttempt → Bool) (now : ℤ) (dc : List (String × ℚ))
    (tracker : List (String × ℤ)) (rules : List DetectionRule) :
    ((checkRules dispatch now dc tracker rules).2.all
      (fun a => a.channel = Channel.email)) = true := by
  rw [List.all_eq_true]
  intro a ha
  simpa using checkRules_attempts_email dispatch now dc tracker rules a ha

/-- C7 counterexample: on a trace where frame 1's inference raises, the
stream produces only frame 0's event and terminates with the inference
error — the later good frame 2 is never processed, contradicting
skip-and-continue. -/
theorem inference_error_counterexample :
    ((runStream (fun _ => true) [] [] c7Trace).1.map (fun ev => ev.frameId) = [0]) ∧
    (runStream (fun _ => true) [] [] c7Trace).2 = StreamEnd.inferenceError := by
  decide

/-- C7 amended: an inference failure on a frame terminates the stream
production loop at that frame (there is no per-frame handler around the
model call): events are produced exactly for the preceding frames and no
later frame is processed. -/
theorem inference_error_terminates_stream
    (dispatch : DispatchAttempt → Bool) (rules : List DetectionRule)
    (tracker : List (String × ℤ)) (pre : List (Option Frame)) (f : Frame)
    (rest : List (Option Frame))
    (hpre : ∀ s ∈ pre, ∃ g raws, s = some g ∧ g.infer = Except.ok raws)
    (herr : f.infer = Except.error ()) :
    (runStream dispatch rules tracker (pre ++ some f :: rest)).2 =
      StreamEnd.inferenceError ∧
    (runStream dispatch rules tracker (pre ++ some f :: rest)).1.length =
      pre.length := by
  induction pre generalizing tracker with
  | nil =>
      simp [runStream, herr]
  | cons s ps ih =>
      obtain ⟨g, raws, rfl, hg⟩ := hpre s (by simp)
      have hps : ∀ x ∈ ps, ∃ g raws, x = some g ∧ g.infer = Except.ok raws :=
        fun x hx => hpre x (by simp [hx])
      have hrec := ih
        (checkRules dispatch g.time (aggregateFrame raws).detected_classes
          tracker rules).1 hps
      simp only [List.cons_append, runStream, hg]
      simpa using hrec

/-- Witness for C7's amended statement at a concrete input: one good
frame before the failing one yields exactly one event and the inference
error. -/
theorem inference_error_terminates_stream_witness :
    (runStream (fun _ => true) [] []
        ([some { frameId := 0, time := 0, infer := Except.ok [] }] ++
          some { frameId := 1, time := 1, infer := Except.error () } ::
            [some { frameId := 2, time := 2, infer := Except.ok [] }])).2 =
      StreamEnd.inferenceError ∧
    (runStream (fun _ => true) [] []
        ([some { frameId := 0, time := 0, infer := Except.ok [] }] ++
          some { frameId := 1, time := 1, infer := Except.error () } ::
            [some { frameId := 2, time := 2, infer := Except.ok [] }])).1.length = 1 :=
  inference_error_terminates_stream (fun _ => true) [] []
    [some { frameId := 0, time := 0, infer := Except.ok [] }]
    { frameId := 1, time := 1, infer := Except.error () }
    [some { frameId := 2, time := 2, infer := Except.ok [] }]
    (by
      intro s hs
      rw [List.mem_singleton] at hs
      subst hs
      exact ⟨_, [], rfl, rfl⟩)
    rfl

theorem saveRuleList_eq_saveAux (rules : List DetectionRule) (r : DetectionRule) :
    saveRuleList rules r = saveAux r rules := by
  induction rules with
  | nil => simp [saveRuleList, saveAux]
  | cons s rest ih =>
      by_cases h : s.id = r.id
      · simp [saveRuleList, saveAux, List.findIdx?_cons, h]
      · rw [saveRuleList, List.findIdx?_cons]
        simp only [h, decide_eq_true_eq, if_neg]
        rw [List.findIdx?_succ]
        rw [saveRuleList] at ih
        cases hidx : rest.findIdx? (fun x => x.id = r.id) with
        | none =>
            rw [hidx] at ih
            simp [saveAux, h, ← ih]
        | some j =>
            rw [hidx] at ih
            simp [saveAux, h, ← ih, hidx]

theorem saveAux_filter_self (rules : List DetectionRule) (r : DetectionRule)
    (hcount : (rules.filter (fun s => s.id = r.id)).length ≤ 1) :
    (saveAux r rules).filter (fun s => s.id = r.id) = [r] := by
  induction rules with
  | nil => simp [saveAux]
  | cons s rest ih =>
      by_cases h : s.id = r.id
      · have hlen : (rest.filter (fun s => s.id = r.id)).length = 0 := by
          rw [List.filter_cons] at hcount
          simp only [h, decide_True, if_pos, List.length_cons] at hcount
          omega
        have hnil : rest.filter (fun s => s.id = r.id) = [] :=
          List.length_eq_zero.mp hlen
        simp [saveAux, h, List.filter_cons, hnil]
      · have hc : (rest.filter (fun s => s.id = r.id)).length ≤ 1 := by
          rw [List.filter_cons] at hcount
          simpa [h] using hcount
        simp [saveAux, h, List.filter_cons, ih hc]

theorem saveAux_no_match (rules : List DetectionRule) (r : DetectionRule)
    (h : ∀ s ∈ rules, s.id ≠ r.id) : saveAux r rules = rules ++ [r] := by
  induction rules with
  | nil => rfl
  | cons s rest ih =>
      have hs : s.id ≠ r.id := h s (by simp)
      simp [saveAux, hs, ih (fun x hx => h x (by simp [hx]))]

theorem saveAux_replace (pre post : List DetectionRule) (old r : DetectionRule)
    (hold : old.id = r.id) (hpre : ∀ s ∈ pre, s.id ≠ r.id) :
    saveAux r (pre ++ old :: post) = pre ++ r :: post := by
  induction pre with
  | nil => simp [saveAux, hold]
  | cons s ps ih =>
      have hs : s.id ≠ r.id := hpre s (by simp)
      simp [saveAux, hs, ih (fun x hx => hpre x (by simp [hx]))]

/-- C5: from a store holding at most one record with the posted id (an
invariant every store reachable through the API satisfies), upsert leaves
exactly one record with that id, carrying the latest posted content — so
repeated saves of the same id keep exactly one record; deleting an id not
present leaves the store unchanged. -/
theorem rule_upsert_exactly_one_delete_unknown_noop
    (rules : List DetectionRule) (r : DetectionRule) (X : String) :
    ((rules.filter (fun s => s.id = r.id)).length ≤ 1 →
      (saveRuleList rules r).filter (fun s => s.id = r.id) = [r]) ∧
    ((∀ s ∈ rules, s.id ≠ X) → deleteRuleList rules X = rules) := by
  constructor
  · intro hcount
    rw [saveRuleList_eq_saveAux]
    exact saveAux_filter_self rules r hcount
  · intro hX
    rw [deleteRuleList, List.filter_eq_self.mpr]
    intro a ha
    simpa using hX a ha

/-- Witness for C5 at a concrete input: saving `demoRule2` over the store
`[demoRule]` (same id, different threshold) leaves exactly the new
record; deleting the unknown id `"nope"` changes nothing. -/
theorem rule_upsert_exactly_one_delete_unknown_noop_witness :
    (saveRuleList [demoRule] demoRule2).filter (fun s => s.id = demoRule2.id) =
      [demoRule2] ∧
    deleteRuleList [demoRule] "nope" = [demoRule] :=
  ⟨(rule_upsert_exactly_one_delete_unknown_noop [demoRule] demoRule2 "nope").1
      (by decide),
   (rule_upsert_exactly_one_delete_unknown_noop [demoRule] demoRule2 "nope").2
      (by decide)⟩

/-- C10: upsert appends at the end when the id is new and replaces in
place when it exists, leaving every other record unchanged in its
original position; delete keeps the remaining records unchanged and in
their original relative order (the result is a sublist containing
exactly the records with a different id). -/
theorem rule_store_order_preserved
    (rules pre post : List DetectionRule) (r old : DetectionRule) (X : String) :
    ((∀ s ∈ rules, s.id ≠ r.id) → saveRuleList rules r = rules ++ [r]) ∧
    (old.id = r.id → (∀ s ∈ pre, s.id ≠ r.id) →
      saveRuleList (pre ++ old :: post) r = pre ++ r :: post) ∧
    List.Sublist (deleteRuleList rules X) rules ∧
    (∀ s ∈ deleteRuleList rules X, s.id ≠ X) ∧
    (∀ s ∈ rules, s.id ≠ X → s ∈ deleteRuleList rules X) := by
  refine ⟨?_, ?_, ?_, ?_, ?_⟩
  · intro h
    rw [saveRuleList_eq_saveAux]
    exact saveAux_no_match rules r h
  · intro h1 h2
    rw [saveRuleList_eq_saveAux]
    exact saveAux_replace pre post old r h1 h2
  · exact List.filter_sublist _
  · intro s hs
    have := List.of_mem_filter hs
    simpa using this
  · intro s hs hne
    exact List.mem_filter.mpr ⟨hs, by simpa using hne⟩

/-- Witness for C10 at concrete inputs: a new id is appended at the end;
replacing the id `"r1"` in `[c8Rule, demoRule]` touches only that slot. -/
theorem rule_store_order_preserved_witness :
    saveRuleList [c8Rule] demoRule = [c8Rule, demoRule] ∧
    saveRuleList [c8Rule, demoRule] demoRule2 = [c8Rule, demoRule2] :=
  ⟨(rule_store_order_preserved [c8Rule] [] [] demoRule demoRule "x").1 (by decide),
   (rule_store_order_preserved [c8Rule, demoRule] [c8Rule] [] demoRule2 demoRule
      "x").2.1 (by decide) (by decide)⟩

/-- C6 counterexample: `c6Payload` is malformed in the claim's sense
(threshold 1.5 outside [0,1]; `sendEmail` true with every email field
absent) yet validation accepts it and the upsert stores it verbatim —
it is not rejected. -/
theorem malformed_rule_accepted_counterexample :
    parseRule c6Payload = some c6Rule ∧
    c6Rule.threshold > 1 ∧
    c6Rule.actions.sendEmail = true ∧
    c6Rule.actions.emailAddress = none ∧
    saveRuleList [] c6Rule = [c6Rule] := by
  decide

/-- C6 amended: a rule payload is rejected at the API boundary iff a
required field is missing — `id`, `detectionClass`, `threshold`,
`actions`, or the `sendEmail`/`sendMessage` booleans inside `actions`;
an accepted payload yields exactly the posted values, uncoerced.
Threshold range and channel-field completeness are not validated. -/
theorem payload_rejected_iff_required_field_missing (p : RulePayload) :
    (parseRule p = none ↔
      p.id = none ∨ p.detectionClass = none ∨ p.threshold = none ∨
      p.actions = none ∨
      ∃ a, p.actions = some a ∧ (a.sendEmail = none ∨ a.sendMessage = none)) ∧
    (∀ i dc t a se sm, p.id = some i → p.detectionClass = some dc →
      p.threshold = some t → p.actions = some a →
      a.sendEmail = some se → a.sendMessage = some sm →
      parseRule p = some
        { id := i, detectionClass := dc, threshold := t,
          actions :=
            { sendEmail := se, sendMessage := sm,
              emailAddress := a.emailAddress, emailSubject := a.emailSubject,
              emailMessage := a.emailMessage, phoneNumber := a.phoneNumber,
              smsMessage := a.smsMessage } }) := by
  obtain ⟨pid, pdc, pt, pa⟩ := p
  constructor
  · cases pid with
    | none => simp [parseRule]
    | some i =>
        cases pdc with
        | none => simp [parseRule]
        | some dc =>
            cases pt with
            | none => simp [parseRule]
            | some t =>
                cases pa with
                | none => simp [parseRule]
                | some a =>
                    obtain ⟨ase, asm, aea, aes, aem, apn, asms⟩ := a
                    cases ase <;> cases asm <;>
                      simp [parseRule, parseActions]
  · intro i dc t a se sm hi hdc ht ha hse hsm
    simp only at hi hdc ht ha
    subst hi
    subst hdc
    subst ht
    subst ha
    obtain ⟨ase, asm, aea, aes, aem, apn, asms⟩ := a
    simp only at hse hsm
    subst hse
    subst hsm
    rfl

/-- Witness for C6's amended statement at a concrete input: `c6Payload`
has every required field, so it parses to exactly its posted values. -/
theorem payload_rejected_iff_required_field_missing_witness :
    parseRule c6Payload = some c6Rule :=
  (payload_rejected_iff_required_field_missing c6Payload).2
    "r6" "person" (mkRat 3 2)
    { sendEmail := some true, sendMessage := some false }
    true false rfl rfl rfl rfl rfl rfl

end SecurityCamera
